import Mathlib

/-!
# Verification of the ath9k beacon engine (`src/atheros/ath9k/beacon.c`)

Shallow embedding of the beacon scheduling/generation code of the Atheros
ath9k driver, together with theorems settling claims about its behaviour.

Modelling conventions:
* C machine integers are modelled as `Nat`; wherever a C computation can
  overflow its width in the reachable regime, the width is made explicit
  with `% 2^w` or the theorem carries an explicit in-range hypothesis.
* The sentinel `ATH_IF_ID_ANY` stored in `sc_bslot[]` is modelled as
  `none : Option Nat`, and the sentinel slot value `-1` stored in
  `avp->av_bslot` is modelled as `none : Option Nat`.
* Hardware side effects (`ath9k_hw_puttxbuf`, writes through `axq_link`,
  `ath9k_hw_txstart`) are recorded as explicit `HwOp` events.
* Constants from the driver headers (`core.h`, not part of the sources
  under verification) — `ATH_BCBUF`, `ATH_DEFAULT_BINTVAL`,
  `BSTUCK_THRESH`, `ATH_DEFAULT_BMISS_LIMIT` — are kept as parameters.
-/

/-- A DMA beacon/transmit buffer (`struct ath_buf`): its descriptor address
`bf_daddr` and the attached frame `bf_mpdu` (the frame is modelled as its
byte list; `none` models a NULL `bf_mpdu`). -/
structure AthBuf where
  bf_daddr : Nat
  bf_mpdu : Option (List Nat)
deriving DecidableEq

/-- A transmit queue (`struct ath_txq`): the queued buffer chain `axq_q`,
the bookkeeping counters `axq_depth` / `axq_totalqueued`, and the link
bookkeeping.  `axq_link` is the address of the descriptor link word of the
last queued buffer (modelled by that buffer's `bf_daddr`; `none` models a
NULL `axq_link`), `axq_linkbuf` the last queued buffer itself. -/
structure AthTxq where
  axq_q : List AthBuf
  axq_depth : Nat
  axq_totalqueued : Nat
  axq_link : Option Nat
  axq_linkbuf : Option AthBuf
deriving DecidableEq

/-- Hardware-facing side effects performed by the queue code. -/
inductive HwOp where
  | puttxbuf (qnum : Nat) (daddr : Nat)
  | writeLink (linkAt : Nat) (daddr : Nat)
  | txstart (qnum : Nat)
deriving DecidableEq

/-- `empty_mcastq_into_cabq` (beacon.c:154): move everything from the vap's
mcast queue to the hardware cab queue.  The source `BUG_ON`s when the mcast
queue is empty; that branch is modelled as a no-op (it is never invoked).
Returns the updated `(mcastq, cabq)` pair and the hardware operations
performed. -/
def empty_mcastq_into_cabq (cabqnum : Nat) (mcastq cabq : AthTxq) :
    AthTxq × AthTxq × List HwOp :=
  match mcastq.axq_q with
  | [] => (mcastq, cabq, [])
  | bfmcast :: _ =>
    let ops : List HwOp :=
      match cabq.axq_link with
      | none => [HwOp.puttxbuf cabqnum bfmcast.bf_daddr]
      | some l => [HwOp.writeLink l bfmcast.bf_daddr]
    let cabq' : AthTxq :=
      { axq_q := cabq.axq_q ++ mcastq.axq_q
        axq_depth := cabq.axq_depth + mcastq.axq_depth
        axq_totalqueued := cabq.axq_totalqueued + mcastq.axq_totalqueued
        axq_link := mcastq.axq_link
        axq_linkbuf := mcastq.axq_linkbuf }
    let mcastq' : AthTxq :=
      { axq_q := []
        axq_depth := 0
        axq_totalqueued := 0
        axq_link := none
        axq_linkbuf := none }
    (mcastq', cabq', ops)

/-- `trigger_mcastq` (beacon.c:184): at DTIM, merge the vap's mcast queue
into the cab queue (when non-empty) and start cab transmission (when the
cab queue ends up non-empty). -/
def trigger_mcastq (cabqnum : Nat) (mcastq cabq : AthTxq) :
    AthTxq × AthTxq × List HwOp :=
  let r :=
    if mcastq.axq_q = [] then (mcastq, cabq, [])
    else empty_mcastq_into_cabq cabqnum mcastq cabq
  if r.2.1.axq_q = [] then r
  else (r.1, r.2.1, r.2.2 ++ [HwOp.txstart cabqnum])

/-- Modelled from the spec: `ath_tx_draintxq` lives in the driver's transmit
code, which is not among the sources under verification; per the spec the
stale cab-queue content is "forcibly drained (discarded)", i.e. every queued
frame is dropped.  (The historical `axq_totalqueued` counter is kept.) -/
def ath_tx_draintxq (q : AthTxq) : AthTxq :=
  { axq_q := []
    axq_depth := 0
    axq_totalqueued := q.axq_totalqueued
    axq_link := none
    axq_linkbuf := none }

/-- The queue-effect core of `ath_beacon_generate` (beacon.c:260-295): read
the mcastq/cabq depths, drain stale cab traffic when the current beacon is
a DTIM, multicast is queued, stale cab traffic is pending, more than one
vap is up and beacons are staggered; then at DTIM trigger the mcast merge.
`is_beacon_dtim` models `avp->av_boff.bo_tim[4] & 1`. -/
def ath_beacon_generate_queues (cabqnum nvaps : Nat)
    (stagbeacons is_beacon_dtim : Bool) (mcastq cabq : AthTxq) :
    AthTxq × AthTxq × List HwOp :=
  let mcastq_depth := mcastq.axq_depth
  let cabq_depth := cabq.axq_depth
  let cabq1 :=
    if mcastq_depth ≠ 0 ∧ is_beacon_dtim = true ∧ cabq_depth ≠ 0 ∧
        1 < nvaps ∧ stagbeacons = true then
      ath_tx_draintxq cabq
    else cabq
  if is_beacon_dtim then trigger_mcastq cabqnum mcastq cabq1
  else (mcastq, cabq1, [])

/-- The check-pending head of `ath9k_beacon_tasklet` (beacon.c:585-651).
Given the stuck threshold `BSTUCK_THRESH` (a driver-header constant, kept
as a parameter), the `sc_noreset` debug flag, whether the beacon hardware
queue still has pending entries (`ath9k_hw_numtxpending ≠ 0`) and the
current `sc_bmisscount`, it returns the new `sc_bmisscount`, whether
`ath_bstuck_process` (the device-reset path) was invoked, and whether the
tasklet proceeds to the frame-generation part (rather than returning
early). -/
def ath9k_beacon_check_pending (bstuckThresh : Nat) (noreset : Bool)
    (pending : Bool) (bmisscount : Nat) : Nat × Bool × Bool :=
  if pending then
    let c := bmisscount + 1
    if c < bstuckThresh then (c, false, false)
    else (c, !noreset, false)
  else (0, false, true)

/-- A run of dispatch cycles: each entry of the list tells whether the
beacon queue was still pending at that cycle.  Returns the final
`sc_bmisscount`, the number of `ath_bstuck_process` invocations, and the
number of cycles that proceeded to frame generation. -/
def runBeaconCycles (bstuckThresh : Nat) (noreset : Bool) :
    List Bool → Nat → Nat × Nat × Nat
  | [], c => (c, 0, 0)
  | p :: rest, c =>
    let r := ath9k_beacon_check_pending bstuckThresh noreset p c
    let t := runBeaconCycles bstuckThresh noreset rest r.1
    (t.1, t.2.1 + (if r.2.1 then 1 else 0), t.2.2 + (if r.2.2 then 1 else 0))

/-- The kernel `howmany` macro (driver headers, not under the sources
being verified): ceiling division. -/
def howmany (a b : Nat) : Nat := (a + b - 1) / b

/-- The beacon configuration record built by `ath_beacon_config`
(beacon.c:827-831): the protocol stack does not support dynamic beacon
configuration, so the source hardcodes `listen_interval = 1`,
`dtim_period = beacon_interval`, `dtim_count = 1` and `bmiss_timeout =
ATH_DEFAULT_BMISS_LIMIT * beacon_interval`.  `bintval` stands for the
header constant `ATH_DEFAULT_BINTVAL` and `bmissLimit` for
`ATH_DEFAULT_BMISS_LIMIT`. -/
structure AthBeaconConfig where
  beacon_interval : Nat
  listen_interval : Nat
  dtim_period : Nat
  dtim_count : Nat
  bmiss_timeout : Nat
deriving DecidableEq

def default_beacon_config (bintval bmissLimit : Nat) : AthBeaconConfig :=
  { beacon_interval := bintval
    listen_interval := 1
    dtim_period := bintval
    dtim_count := 1
    bmiss_timeout := bmissLimit * bintval }

/-- The `bs_bmissthreshold` computation of the station-alignment path of
`ath_beacon_config` (beacon.c:885-931), together with the `sleepduration`
value it tests.  In the C source `sleepduration = conf.listen_interval *
intval; if (sleepduration <= 0) sleepduration = intval;` — on `Nat` the
`<= 0` test is `= 0`. -/
def bs_bmissthreshold (bmissLimit : Nat) (conf : AthBeaconConfig)
    (intval : Nat) : Nat :=
  let sleepduration0 := conf.listen_interval * intval
  let sleepduration := if sleepduration0 = 0 then intval else sleepduration0
  if intval < sleepduration then conf.listen_interval * bmissLimit / 2
  else
    let t := howmany conf.bmiss_timeout intval
    if 15 < t then 15 else if t = 0 then 1 else t

/-- The `TSF_TO_TU` macro (beacon.c:559, 807): convert the 64-bit TSF,
given as its high and low 32-bit words, to time units —
`(h << 22) | (l >> 10)`, a 32-bit value. -/
def TSF_TO_TU (h l : Nat) : Nat :=
  (((h % 2 ^ 32) <<< 22) ||| ((l % 2 ^ 32) >>> 10)) % 2 ^ 32

/-- State of the station-alignment catch-up loop of `ath_beacon_config`
(beacon.c:896-903): the candidate next TBTT and the DTIM/CFP countdown
counters. -/
structure TbttState where
  nexttbtt : Nat
  dtimcount : Nat
  cfpcount : Nat
deriving DecidableEq

/-- One iteration of the loop body (beacon.c:897-902): add one interval to
`nexttbtt`; `if (--dtimcount < 0) { dtimcount = dtimperiod - 1; if
(--cfpcount < 0) cfpcount = cfpperiod - 1; }`.  On `Nat` counters the C
test `--x < 0` is `x = 0` before the decrement. -/
def tbttStep (intval dtimperiod cfpperiod : Nat) (s : TbttState) :
    TbttState :=
  let nexttbtt := s.nexttbtt + intval
  if s.dtimcount = 0 then
    if s.cfpcount = 0 then
      { nexttbtt := nexttbtt, dtimcount := dtimperiod - 1,
        cfpcount := cfpperiod - 1 }
    else
      { nexttbtt := nexttbtt, dtimcount := dtimperiod - 1,
        cfpcount := s.cfpcount - 1 }
  else
    { nexttbtt := nexttbtt, dtimcount := s.dtimcount - 1,
      cfpcount := s.cfpcount }

/-- The do/while loop (beacon.c:896-903): run the body once, then repeat
while `nexttbtt < tsftu`.  `fuel` bounds the iteration count; it is spent
only on iterations whose result is still below `tsftu`, so any `fuel ≥
tsftu` is enough when `intval ≥ 1`. -/
def tbttLoop (intval dtimperiod cfpperiod tsftu : Nat) :
    Nat → TbttState → TbttState
  | 0, s => tbttStep intval dtimperiod cfpperiod s
  | fuel + 1, s =>
    let s' := tbttStep intval dtimperiod cfpperiod s
    if s'.nexttbtt < tsftu then
      tbttLoop intval dtimperiod cfpperiod tsftu fuel s'
    else s'

/-- The station-alignment catch-up of `ath_beacon_config` (beacon.c:889-903):
`tsftu = TSF_TO_TU(tsf >> 32, tsf) + FUDGE` with `FUDGE = 2`, then the
do/while loop pulling `nexttbtt` forward. -/
def ath_beacon_config_sta_catchup (intval dtimperiod cfpperiod : Nat)
    (tsf : Nat) (s : TbttState) : TbttState :=
  let tsftu := TSF_TO_TU (tsf >>> 32) tsf + 2
  tbttLoop intval dtimperiod cfpperiod tsftu tsftu s

/-- The staggered-mode interface selection of `ath9k_beacon_tasklet`
(beacon.c:660-684): compute the cycle slot from the TSF and look up the
interface in `sc_bslot[(slot + 1) % ATH_BCBUF]`; generation is then
invoked for that interface alone (an empty slot generates nothing).
Returns the slot, the selected interface and the list of interfaces beacon
generation is invoked for. -/
def ath9k_beacon_tasklet_select (ATH_BCBUF intval : Nat)
    (sc_bslot : List (Option Nat)) (tsf : Nat) :
    Nat × Option Nat × List Nat :=
  let tsftu := TSF_TO_TU (tsf >>> 32) tsf
  let slot := ((tsftu % intval) * ATH_BCBUF) / intval
  let if_id := sc_bslot.getD ((slot + 1) % ATH_BCBUF) none
  (slot, if_id, if_id.toList)

/-- The slot scan of `ath_beacon_alloc` (beacon.c:391-406):
`avp->av_bslot = 0; for (slot = 0; slot < ATH_BCBUF; slot++) if
(bslot[slot] == ANY) { if (slot+1 < ATH_BCBUF && bslot[slot+1] == ANY)
{ av_bslot = slot+1; break; } av_bslot = slot; /* keep looking */ }`.
`idx` is the absolute index of the list head, `acc` the current
`av_bslot`. -/
def slotScanAux : List (Option Nat) → Nat → Nat → Nat
  | [], _, acc => acc
  | none :: none :: _, idx, _ => idx + 1
  | none :: rest, idx, _ => slotScanAux rest (idx + 1) idx
  | some _ :: rest, idx, acc => slotScanAux rest (idx + 1) acc

/-- The slot chosen by the scan, starting from `av_bslot = 0`. -/
def slotScan (l : List (Option Nat)) : Nat := slotScanAux l 0 0

/-- Index of the first slot `i` with both `i` and `i+1` empty. -/
def firstPairIdx : List (Option Nat) → Option Nat
  | none :: none :: _ => some 0
  | _ :: rest =>
    match firstPairIdx rest with
    | some i => some (i + 1)
    | none => none
  | [] => none

/-- Index of the last (highest-indexed) empty slot. -/
def lastEmptyIdx : List (Option Nat) → Option Nat
  | [] => none
  | none :: rest =>
    match lastEmptyIdx rest with
    | some j => some (j + 1)
    | none => some 0
  | some _ :: rest =>
    match lastEmptyIdx rest with
    | some j => some (j + 1)
    | none => none

/-- Index of the first empty slot (the notion the specification's
slot-allocation sentence is phrased in terms of). -/
def firstEmptyIdx : List (Option Nat) → Option Nat
  | [] => none
  | none :: _ => some 0
  | some _ :: rest =>
    match firstEmptyIdx rest with
    | some i => some (i + 1)
    | none => none

/-- The slot choice exactly as the specification's words describe it:
find the first empty slot; if it and the next slot are both empty take the
second of the pair, otherwise take the first empty slot itself.  (Stated
for refinement comparison against `slotScan`, the scan the source actually
performs.) -/
def claimedSlotChoice (t : List (Option Nat)) : Option Nat :=
  match firstEmptyIdx t with
  | none => none
  | some f => if t.get? (f + 1) = some none then some (f + 1) else some f

/-- A virtual interface's beacon state (`struct ath_vap`, beacon fields):
the owned beacon buffer `av_bcbuf` (`none` = NULL) and the assigned slot
`av_bslot` (`none` models the sentinel `-1`). -/
structure AthVap where
  av_bcbuf : Option AthBuf
  av_bslot : Option Nat
deriving DecidableEq

/-- The driver state touched by the beacon lifecycle (`struct ath_softc`):
the slot table `sc_bslot` (`none` models `ATH_IF_ID_ANY`), the count of
beaconing vaps `sc_nbcnvaps`, the free beacon-buffer pool `sc_bbuf`, and
the vap table `sc_vaps` indexed by interface id. -/
structure AthSoftc where
  sc_bslot : List (Option Nat)
  sc_nbcnvaps : Nat
  sc_bbuf : List AthBuf
  sc_vaps : Nat → AthVap

/-- The TSF adjustment of `ath_beacon_alloc` (beacon.c:465-466):
`tsfadjust = (intval * (ATH_BCBUF - bslot)) / ATH_BCBUF` time units,
shifted left by 10 (TU → TSF) as a 64-bit value. -/
def tsfadjustVal (ATH_BCBUF intval bslot : Nat) : Nat :=
  (((intval * (ATH_BCBUF - bslot)) / ATH_BCBUF) <<< 10) % 2 ^ 64

/-- Little-endian byte encoding of a 64-bit value (`cpu_to_le64` followed
by `memcpy` of 8 bytes). -/
def le64Bytes (v : Nat) : List Nat :=
  [v % 2 ^ 8, v / 2 ^ 8 % 2 ^ 8, v / 2 ^ 16 % 2 ^ 8, v / 2 ^ 24 % 2 ^ 8,
   v / 2 ^ 32 % 2 ^ 8, v / 2 ^ 40 % 2 ^ 8, v / 2 ^ 48 % 2 ^ 8,
   v / 2 ^ 56 % 2 ^ 8]

/-- `memcpy(&wh[1], &tsfadjust, sizeof(tsfadjust))` (beacon.c:474): write
the 8 little-endian bytes of `adj` immediately after the 802.11 header
(`hdrlen` bytes into the frame). -/
def writeTsfAdjust (hdrlen adj : Nat) (skb : List Nat) : List Nat :=
  skb.take hdrlen ++ le64Bytes adj ++ skb.drop (hdrlen + 8)

/-- The staggered-beacon frame adjustment applied by `ath_beacon_alloc`
(beacon.c:446-475): when `sc_stagbeacons` is set and the vap's slot is
positive, write the TSF adjustment after the header; otherwise (slot 0, no
slot, or burst mode) leave the frame untouched. -/
def stagFrameAdjust (stagbeacons : Bool) (av_bslot : Option Nat)
    (ATH_BCBUF intval hdrlen : Nat) (skb : List Nat) : List Nat :=
  match stagbeacons, av_bslot with
  | true, some s =>
    if 0 < s then
      writeTsfAdjust hdrlen (tsfadjustVal ATH_BCBUF intval s) skb
    else skb
  | _, _ => skb

/-- `ath_beacon_alloc` (beacon.c:364-482).  Parameters: `needsSlot` models
`sc_opmode == HAL_M_HOSTAP || !sc_hasveol` (the interface requires slot
management), `stagbeacons` models `sc_stagbeacons`, `ATH_BCBUF` the pool /
slot-table size constant, `intval` the `ATH_DEFAULT_BINTVAL` constant,
`hdrlen` the 802.11 header size, and `newFrame` the frame returned by the
external `ath_get_beacon` (`none` = NULL).  The result is `none` exactly
on the paths the source treats as impossible (empty buffer pool at
`list_first_entry`, or the `KASSERT`-guarded scan landing on an occupied
slot); otherwise it is the new state together with the C return code
(`0`, or `-ENOMEM = -12` when `ath_get_beacon` failed). -/
def ath_beacon_alloc (needsSlot stagbeacons : Bool)
    (ATH_BCBUF intval hdrlen : Nat) (newFrame : Option (List Nat))
    (sc : AthSoftc) (if_id : Nat) : Option (AthSoftc × Int) :=
  let avp0 := sc.sc_vaps if_id
  let phase1 : Option (List (Option Nat) × Nat × List AthBuf × AthVap) :=
    match avp0.av_bcbuf with
    | some _ => some (sc.sc_bslot, sc.sc_nbcnvaps, sc.sc_bbuf, avp0)
    | none =>
      match sc.sc_bbuf with
      | [] => none
      | bf :: rest =>
        let avp1 : AthVap := { avp0 with av_bcbuf := some bf }
        if needsSlot then
          let slot := slotScan sc.sc_bslot
          if sc.sc_bslot.get? slot = some none then
            some (sc.sc_bslot.set slot (some if_id), sc.sc_nbcnvaps + 1,
                  rest, { avp1 with av_bslot := some slot })
          else none
        else some (sc.sc_bslot, sc.sc_nbcnvaps, rest, avp1)
  match phase1 with
  | none => none
  | some (bslot1, nbcn1, pool1, avp1) =>
    match avp1.av_bcbuf with
    | none => none
    | some bf0 =>
      let bf1 : AthBuf := { bf0 with bf_mpdu := none }
      match newFrame with
      | none =>
        some ({ sc_bslot := bslot1, sc_nbcnvaps := nbcn1,
                sc_bbuf := pool1,
                sc_vaps := fun i =>
                  if i = if_id then { avp1 with av_bcbuf := some bf1 }
                  else sc.sc_vaps i }, -12)
      | some skb =>
        let skb1 := stagFrameAdjust stagbeacons avp1.av_bslot
          ATH_BCBUF intval hdrlen skb
        let bf2 : AthBuf := { bf1 with bf_mpdu := some skb1 }
        some ({ sc_bslot := bslot1, sc_nbcnvaps := nbcn1,
                sc_bbuf := pool1,
                sc_vaps := fun i =>
                  if i = if_id then { avp1 with av_bcbuf := some bf2 }
                  else sc.sc_vaps i }, 0)

/-- `ath_beacon_return` (beacon.c:491-517): when the vap owns a beacon
buffer, clear its slot (when `av_bslot != -1`) and decrement
`sc_nbcnvaps`, free the attached frame, return the buffer to the tail of
the pool and clear `av_bcbuf` (the source leaves `av_bslot` itself
untouched); otherwise do nothing. -/
def ath_beacon_return (sc : AthSoftc) (if_id : Nat) : AthSoftc :=
  let avp := sc.sc_vaps if_id
  match avp.av_bcbuf with
  | none => sc
  | some bf =>
    let p : List (Option Nat) × Nat :=
      match avp.av_bslot with
      | some i => (sc.sc_bslot.set i none, sc.sc_nbcnvaps - 1)
      | none => (sc.sc_bslot, sc.sc_nbcnvaps)
    { sc_bslot := p.1, sc_nbcnvaps := p.2,
      sc_bbuf := sc.sc_bbuf ++ [{ bf with bf_mpdu := none }],
      sc_vaps := fun i =>
        if i = if_id then { av_bcbuf := none, av_bslot := avp.av_bslot }
        else sc.sc_vaps i }

/-- One beacon-state lifecycle operation: an allocation (with the frame
`ath_get_beacon` would return) or a release. -/
inductive BeaconOp where
  | alloc (if_id : Nat) (newFrame : Option (List Nat))
  | release (if_id : Nat)

/-- A lifecycle step.  The impossible/fatal paths of `ath_beacon_alloc`
(`none` results) leave the state unchanged. -/
def beaconStep (needsSlot stagbeacons : Bool)
    (ATH_BCBUF intval hdrlen : Nat) (sc : AthSoftc) :
    BeaconOp → AthSoftc
  | BeaconOp.alloc if_id f =>
    match ath_beacon_alloc needsSlot stagbeacons ATH_BCBUF intval hdrlen
        f sc if_id with
    | some (sc', _) => sc'
    | none => sc
  | BeaconOp.release if_id => ath_beacon_return sc if_id

/-- Run a sequence of lifecycle operations. -/
def beaconRun (needsSlot stagbeacons : Bool)
    (ATH_BCBUF intval hdrlen : Nat) (ops : List BeaconOp)
    (sc : AthSoftc) : AthSoftc :=
  ops.foldl (beaconStep needsSlot stagbeacons ATH_BCBUF intval hdrlen) sc

/-- The initial state: an all-empty slot table of size `N`, no beaconing
vaps, the full buffer pool, and every vap with no beacon state
(`av_bcbuf = NULL`, `av_bslot = -1`). -/
def initSoftc (N : Nat) (bufs : List AthBuf) : AthSoftc :=
  { sc_bslot := List.replicate N none
    sc_nbcnvaps := 0
    sc_bbuf := bufs
    sc_vaps := fun _ => { av_bcbuf := none, av_bslot := none } }

/-- A concrete driver state for exercising the slot scan: slot table
[empty, occupied, empty, empty], one free buffer, no vap has beacon
state. -/
def c1State : AthSoftc :=
  { sc_bslot := [none, some 5, none, none]
    sc_nbcnvaps := 1
    sc_bbuf := [⟨7, none⟩]
    sc_vaps := fun _ => { av_bcbuf := none, av_bslot := none } }

/-- The state `ath_beacon_alloc` produces from `c1State` with staggering
enabled: slot 3 assigned, adjustment for slot 3 written to the frame. -/
def c9AllocResult : AthSoftc :=
  { sc_bslot := [none, some 5, none, some 0]
    sc_nbcnvaps := 2
    sc_bbuf := []
    sc_vaps := fun i =>
      if i = 0 then
        { av_bcbuf := some ⟨7, some (writeTsfAdjust 24
            (tsfadjustVal 4 100 3) (List.replicate 40 5))⟩,
          av_bslot := some 3 }
      else c1State.sc_vaps i }

/-- The slot-table invariant of the beacon lifecycle in the
slot-management mode (`sc_opmode == HAL_M_HOSTAP || !sc_hasveol`): the
table has its fixed size; every occupied slot points to a vap that owns a
beacon buffer and records exactly that slot; every buffer-owning vap's
recorded slot points back at it; `sc_nbcnvaps` counts the occupied slots;
occupied slots plus free buffers never exceed the pool size; and every
buffer-owning vap occupies a slot. -/
def SlotInv (N : Nat) (sc : AthSoftc) : Prop :=
  sc.sc_bslot.length = N ∧
  (∀ i v, sc.sc_bslot.get? i = some (some v) →
    (sc.sc_vaps v).av_bslot = some i ∧ (sc.sc_vaps v).av_bcbuf ≠ none) ∧
  (∀ v i, (sc.sc_vaps v).av_bcbuf ≠ none →
    (sc.sc_vaps v).av_bslot = some i →
    sc.sc_bslot.get? i = some (some v)) ∧
  sc.sc_nbcnvaps = sc.sc_bslot.countP Option.isSome ∧
  sc.sc_nbcnvaps + sc.sc_bbuf.length ≤ N ∧
  (∀ v, (sc.sc_vaps v).av_bcbuf ≠ none →
    ∃ i, (sc.sc_vaps v).av_bslot = some i)

/-- C3: for every CAB merge performed with a non-empty local multicast
queue, the shared queue's depth afterwards is the sum of both prior depths,
the local queue's depth drops to 0 with a cleared link, and the appended
chain is attached by a direct head write when the shared queue was empty
(NULL `axq_link`), and by rewriting the previous tail's link word
otherwise. -/
theorem cab_merge_depth_and_link (cabqnum : Nat) (mcastq cabq : AthTxq)
    (hd : AthBuf) (tl : List AthBuf) (hq : mcastq.axq_q = hd :: tl)
    (hwf : cabq.axq_link = (cabq.axq_q.getLast?).map AthBuf.bf_daddr) :
    (empty_mcastq_into_cabq cabqnum mcastq cabq).2.1.axq_depth =
      cabq.axq_depth + mcastq.axq_depth ∧
    (empty_mcastq_into_cabq cabqnum mcastq cabq).1.axq_depth = 0 ∧
    (empty_mcastq_into_cabq cabqnum mcastq cabq).1.axq_link = none ∧
    (cabq.axq_q = [] →
      (empty_mcastq_into_cabq cabqnum mcastq cabq).2.2 =
        [HwOp.puttxbuf cabqnum hd.bf_daddr]) ∧
    (∀ tb, cabq.axq_q.getLast? = some tb →
      (empty_mcastq_into_cabq cabqnum mcastq cabq).2.2 =
        [HwOp.writeLink tb.bf_daddr hd.bf_daddr]) := by
  refine ⟨?_, ?_, ?_, ?_, ?_⟩
  · simp [empty_mcastq_into_cabq, hq]
  · simp [empty_mcastq_into_cabq, hq]
  · simp [empty_mcastq_into_cabq, hq]
  · intro hc
    have hlink : cabq.axq_link = none := by
      rw [hwf, hc]; rfl
    simp [empty_mcastq_into_cabq, hq, hlink]
  · intro tb htb
    have hlink : cabq.axq_link = some tb.bf_daddr := by
      rw [hwf, htb]; rfl
    simp [empty_mcastq_into_cabq, hq, hlink]

/-- Closed witness for `cab_merge_depth_and_link`. -/
theorem cab_merge_depth_and_link_witness :
    (empty_mcastq_into_cabq 7
        { axq_q := [⟨11, none⟩], axq_depth := 1, axq_totalqueued := 1,
          axq_link := some 11, axq_linkbuf := some ⟨11, none⟩ }
        { axq_q := [], axq_depth := 0, axq_totalqueued := 0,
          axq_link := none, axq_linkbuf := none }).2.1.axq_depth = 0 + 1 := by
  have h := cab_merge_depth_and_link 7
    { axq_q := [⟨11, none⟩], axq_depth := 1, axq_totalqueued := 1,
      axq_link := some 11, axq_linkbuf := some ⟨11, none⟩ }
    { axq_q := [], axq_depth := 0, axq_totalqueued := 0,
      axq_link := none, axq_linkbuf := none }
    ⟨11, none⟩ [] rfl rfl
  exact h.1

/-- C4: on a DTIM generation cycle with multicast queued and stale cab
traffic pending, the stale traffic is discarded before the merge exactly
when more than one vap is active with staggered beacons (so the resulting
cab depth is just the merged mcast depth); with a single vap the stale
traffic is left in place (so the resulting cab depth is the sum). -/
theorem cab_stale_drain_policy (cabqnum nvaps : Nat) (stagbeacons : Bool)
    (mcastq cabq : AthTxq)
    (hm : mcastq.axq_q ≠ []) (hmd : mcastq.axq_depth ≠ 0)
    (hcd : cabq.axq_depth ≠ 0) :
    (1 < nvaps → stagbeacons = true →
      (ath_beacon_generate_queues cabqnum nvaps stagbeacons true
          mcastq cabq).2.1.axq_depth = mcastq.axq_depth) ∧
    (nvaps = 1 →
      (ath_beacon_generate_queues cabqnum nvaps stagbeacons true
          mcastq cabq).2.1.axq_depth =
        cabq.axq_depth + mcastq.axq_depth) := by
  obtain ⟨hd, tl, hq⟩ : ∃ hd tl, mcastq.axq_q = hd :: tl := by
    cases hqq : mcastq.axq_q with
    | nil => exact absurd hqq hm
    | cons a l => exact ⟨a, l, rfl⟩
  constructor
  · intro hn hs
    subst hs
    simp only [ath_beacon_generate_queues]
    rw [if_pos trivial, if_pos ⟨hmd, trivial, hcd, hn, trivial⟩]
    simp [trigger_mcastq, hq, empty_mcastq_into_cabq, ath_tx_draintxq]
  · intro hn
    subst hn
    simp only [ath_beacon_generate_queues]
    rw [if_pos trivial, if_neg (fun h => absurd h.2.2.2.1 (lt_irrefl 1))]
    simp [trigger_mcastq, hq, empty_mcastq_into_cabq]

/-- Closed witness for `cab_stale_drain_policy`. -/
theorem cab_stale_drain_policy_witness :
    (ath_beacon_generate_queues 7 2 true true
        { axq_q := [⟨11, none⟩], axq_depth := 1, axq_totalqueued := 1,
          axq_link := some 11, axq_linkbuf := some ⟨11, none⟩ }
        { axq_q := [⟨5, none⟩], axq_depth := 1, axq_totalqueued := 1,
          axq_link := some 5, axq_linkbuf := some ⟨5, none⟩ }).2.1.axq_depth
      = 1 := by
  have h := cab_stale_drain_policy 7 2 true
    { axq_q := [⟨11, none⟩], axq_depth := 1, axq_totalqueued := 1,
      axq_link := some 11, axq_linkbuf := some ⟨11, none⟩ }
    { axq_q := [⟨5, none⟩], axq_depth := 1, axq_totalqueued := 1,
      axq_link := some 5, axq_linkbuf := some ⟨5, none⟩ }
    (by decide) (by decide) (by decide)
  exact h.1 (by decide) rfl

theorem runBeaconCycles_append (bstuckThresh : Nat) (noreset : Bool)
    (l₁ l₂ : List Bool) (c : Nat) :
    runBeaconCycles bstuckThresh noreset (l₁ ++ l₂) c =
      ((runBeaconCycles bstuckThresh noreset l₂
          (runBeaconCycles bstuckThresh noreset l₁ c).1).1,
       (runBeaconCycles bstuckThresh noreset l₁ c).2.1 +
         (runBeaconCycles bstuckThresh noreset l₂
           (runBeaconCycles bstuckThresh noreset l₁ c).1).2.1,
       (runBeaconCycles bstuckThresh noreset l₁ c).2.2 +
         (runBeaconCycles bstuckThresh noreset l₂
           (runBeaconCycles bstuckThresh noreset l₁ c).1).2.2) := by
  induction l₁ generalizing c with
  | nil => simp [runBeaconCycles]
  | cons p rest ih =>
    simp only [List.cons_append, runBeaconCycles, List.append_eq, ih,
      Prod.mk.injEq]
    exact ⟨trivial, by omega, by omega⟩

theorem runBeaconCycles_pending_below (bstuckThresh : Nat) (noreset : Bool)
    (n c : Nat) (h : c + n < bstuckThresh) :
    runBeaconCycles bstuckThresh noreset (List.replicate n true) c =
      (c + n, 0, 0) := by
  induction n generalizing c with
  | zero => simp [runBeaconCycles]
  | succ m ih =>
    have hlt : c + 1 < bstuckThresh := by omega
    rw [List.replicate_succ]
    simp only [runBeaconCycles, ath9k_beacon_check_pending,
      eq_self_iff_true, if_true, if_pos hlt]
    rw [ih (c + 1) (by omega)]
    simp [Prod.ext_iff]
    omega

/-- C2: with the device-reset mode active (`sc_noreset = false`) and stuck
threshold `T ≥ 1`, starting from `sc_bmisscount = 0`: a run of `T-1`
pending ("miss") cycles followed by one drained cycle ends with
`sc_bmisscount = 0`, never invokes `ath_bstuck_process`, and only its final
(drained) cycle proceeds to frame generation — every pending cycle returns
without generating anything; a run of `T` pending cycles ends with
`sc_bmisscount = T`, invokes `ath_bstuck_process` exactly once, and no
cycle of it generates anything. -/
theorem beacon_miss_counter_runs (T : Nat) (hT : 1 ≤ T) :
    runBeaconCycles T false (List.replicate (T - 1) true ++ [false]) 0 =
      (0, 0, 1) ∧
    runBeaconCycles T false (List.replicate T true) 0 = (T, 1, 0) := by
  have hfirst := runBeaconCycles_pending_below T false (T - 1) 0 (by omega)
  constructor
  · rw [runBeaconCycles_append, hfirst]
    simp [runBeaconCycles, ath9k_beacon_check_pending]
  · have hrepl : List.replicate T true =
        List.replicate (T - 1) true ++ [true] := by
      conv_lhs => rw [show T = (T - 1) + 1 from by omega]
      rw [List.replicate_succ']
    rw [hrepl, runBeaconCycles_append, hfirst]
    have hnot : ¬ (0 + (T - 1) + 1 < T) := by omega
    simp only [runBeaconCycles, ath9k_beacon_check_pending,
      eq_self_iff_true, if_true, if_neg hnot]
    simp [Prod.ext_iff]
    omega

/-- Closed witness for `beacon_miss_counter_runs` (threshold 9, the
driver's `BSTUCK_THRESH` order of magnitude). -/
theorem beacon_miss_counter_runs_witness :
    runBeaconCycles 9 false (List.replicate 8 true ++ [false]) 0 =
      (0, 0, 1) ∧
    runBeaconCycles 9 false (List.replicate 9 true) 0 = (9, 1, 0) := by
  have h := beacon_miss_counter_runs 9 (by decide)
  exact h

/-- C5: for every configuration accepted by the station-alignment path of
the timing calculator (the source builds exactly the
`default_beacon_config` record, for any values of the header constants
`ATH_DEFAULT_BINTVAL` and `ATH_DEFAULT_BMISS_LIMIT`) and every positive
programmed interval, the produced beacon-miss threshold lies in [1, 15]. -/
theorem bmissthreshold_range (bintval bmissLimit intval : Nat)
    (_hi : 0 < intval) :
    1 ≤ bs_bmissthreshold bmissLimit
          (default_beacon_config bintval bmissLimit) intval ∧
    bs_bmissthreshold bmissLimit
          (default_beacon_config bintval bmissLimit) intval ≤ 15 := by
  simp only [bs_bmissthreshold, default_beacon_config, one_mul, ite_self]
  rw [if_neg (lt_irrefl intval)]
  by_cases h15 : 15 < howmany (bmissLimit * bintval) intval
  · rw [if_pos h15]; omega
  · rw [if_neg h15]
    by_cases h0 : howmany (bmissLimit * bintval) intval = 0
    · rw [if_pos h0]; omega
    · rw [if_neg h0]; omega

/-- Closed witness for `bmissthreshold_range` (interval 100, the spec's
nominal beacon interval; `ATH_DEFAULT_BMISS_LIMIT` order 10). -/
theorem bmissthreshold_range_witness :
    1 ≤ bs_bmissthreshold 10 (default_beacon_config 100 10) 100 ∧
    bs_bmissthreshold 10 (default_beacon_config 100 10) 100 ≤ 15 := by
  exact bmissthreshold_range 100 10 100 (by decide)

theorem tbttStep_nexttbtt (intval dtimperiod cfpperiod : Nat)
    (s : TbttState) :
    (tbttStep intval dtimperiod cfpperiod s).nexttbtt =
      s.nexttbtt + intval := by
  simp only [tbttStep]
  by_cases h1 : s.dtimcount = 0 <;> by_cases h2 : s.cfpcount = 0 <;>
    simp [h1, h2]

theorem tbttLoop_spec (intval dtimperiod cfpperiod tsftu : Nat)
    (_hi : 1 ≤ intval) :
    ∀ fuel s, tsftu ≤ s.nexttbtt + intval + fuel * intval →
      tsftu ≤ (tbttLoop intval dtimperiod cfpperiod tsftu fuel s).nexttbtt ∧
      ∃ k, 1 ≤ k ∧
        (tbttLoop intval dtimperiod cfpperiod tsftu fuel s).nexttbtt =
          s.nexttbtt + k * intval := by
  intro fuel
  induction fuel with
  | zero =>
    intro s h
    simp only [tbttLoop, tbttStep_nexttbtt]
    exact ⟨by omega, 1, le_refl 1, by omega⟩
  | succ m ih =>
    intro s h
    simp only [tbttLoop]
    by_cases hlt :
        (tbttStep intval dtimperiod cfpperiod s).nexttbtt < tsftu
    · rw [if_pos hlt]
      have hstep := tbttStep_nexttbtt intval dtimperiod cfpperiod s
      have harg : tsftu ≤
          (tbttStep intval dtimperiod cfpperiod s).nexttbtt + intval +
            m * intval := by
        rw [hstep]
        have : s.nexttbtt + intval + (m + 1) * intval =
            s.nexttbtt + intval + intval + m * intval := by ring
        omega
      obtain ⟨hge, k, hk1, hkeq⟩ := ih _ harg
      refine ⟨hge, k + 1, by omega, ?_⟩
      rw [hkeq, hstep]
      ring
    · rw [if_neg hlt]
      rw [tbttStep_nexttbtt] at hlt ⊢
      exact ⟨by omega, 1, le_refl 1, by omega⟩

/-- C6: in station alignment mode with a positive interval, the catch-up
loop exits with `nexttbtt ≥ TSF_TO_TU(clock) + 2` (fudge of exactly 2
ticks) and `nexttbtt = initial + k * interval` for some `k ≥ 1` — the body
always runs at least once.  The in-range hypothesis `hreg` marks the regime
in which the `Nat` model coincides with the 32-bit C arithmetic (no u32
wrap-around of `nexttbtt`). -/
theorem sta_catchup_postcondition (intval dtimperiod cfpperiod tsf : Nat)
    (s : TbttState) (hi : 1 ≤ intval)
    (_hreg : max s.nexttbtt (TSF_TO_TU (tsf >>> 32) tsf + 2) + intval
      ≤ 2 ^ 32) :
    TSF_TO_TU (tsf >>> 32) tsf + 2 ≤
      (ath_beacon_config_sta_catchup intval dtimperiod cfpperiod tsf
        s).nexttbtt ∧
    ∃ k, 1 ≤ k ∧
      (ath_beacon_config_sta_catchup intval dtimperiod cfpperiod tsf
          s).nexttbtt = s.nexttbtt + k * intval := by
  have h := tbttLoop_spec intval dtimperiod cfpperiod
    (TSF_TO_TU (tsf >>> 32) tsf + 2) hi
    (TSF_TO_TU (tsf >>> 32) tsf + 2) s
    (by nlinarith [Nat.le_mul_of_pos_right (TSF_TO_TU (tsf >>> 32) tsf + 2) hi])
  exact h

/-- Closed witness for `sta_catchup_postcondition`: interval 100, clock 0. -/
theorem sta_catchup_postcondition_witness :
    TSF_TO_TU (0 >>> 32) 0 + 2 ≤
      (ath_beacon_config_sta_catchup 100 1 1 0
        { nexttbtt := 0, dtimcount := 0, cfpcount := 0 }).nexttbtt ∧
    ∃ k, 1 ≤ k ∧
      (ath_beacon_config_sta_catchup 100 1 1 0
          { nexttbtt := 0, dtimcount := 0, cfpcount := 0 }).nexttbtt =
        0 + k * 100 := by
  have h := sta_catchup_postcondition 100 1 1 0
    { nexttbtt := 0, dtimcount := 0, cfpcount := 0 }
    (by decide) (by decide)
  exact h

/-- C7: on every staggered dispatch cycle with a positive interval, the
computed slot equals `((tsftu mod intval) * ATH_BCBUF) / intval` and lies
in `[0, ATH_BCBUF - 1]`, and generation is invoked exactly for the content
of `sc_bslot[(slot + 1) mod ATH_BCBUF]` — one interface when that slot is
occupied, none when it is empty, and never any other interface. -/
theorem stagger_select_slot (ATH_BCBUF intval : Nat)
    (sc_bslot : List (Option Nat)) (tsf : Nat)
    (hP : 0 < ATH_BCBUF) (hi : 0 < intval) :
    (ath9k_beacon_tasklet_select ATH_BCBUF intval sc_bslot tsf).1 =
      ((TSF_TO_TU (tsf >>> 32) tsf % intval) * ATH_BCBUF) / intval ∧
    (ath9k_beacon_tasklet_select ATH_BCBUF intval sc_bslot tsf).1 <
      ATH_BCBUF ∧
    (ath9k_beacon_tasklet_select ATH_BCBUF intval sc_bslot tsf).2.1 =
      sc_bslot.getD
        (((ath9k_beacon_tasklet_select ATH_BCBUF intval sc_bslot tsf).1 + 1)
          % ATH_BCBUF) none ∧
    (ath9k_beacon_tasklet_select ATH_BCBUF intval sc_bslot tsf).2.2 =
      ((ath9k_beacon_tasklet_select ATH_BCBUF intval sc_bslot tsf).2.1).toList
    := by
  refine ⟨rfl, ?_, rfl, rfl⟩
  simp only [ath9k_beacon_tasklet_select]
  have hmod : TSF_TO_TU (tsf >>> 32) tsf % intval < intval :=
    Nat.mod_lt _ hi
  have hmul : (TSF_TO_TU (tsf >>> 32) tsf % intval) * ATH_BCBUF <
      intval * ATH_BCBUF := by
    exact Nat.mul_lt_mul_of_lt_of_le hmod (le_refl _) hP
  exact Nat.div_lt_of_lt_mul (by omega)

/-- Closed witness for `stagger_select_slot`: pool 4, interval 100. -/
theorem stagger_select_slot_witness :
    (ath9k_beacon_tasklet_select 4 100 [some 0, none, some 1, none] 0).1 =
      ((TSF_TO_TU (0 >>> 32) 0 % 100) * 4) / 100 ∧
    (ath9k_beacon_tasklet_select 4 100 [some 0, none, some 1, none] 0).1 <
      4 ∧
    (ath9k_beacon_tasklet_select 4 100 [some 0, none, some 1, none] 0).2.1 =
      [some 0, none, some 1, none].getD
        (((ath9k_beacon_tasklet_select 4 100
            [some 0, none, some 1, none] 0).1 + 1) % 4) none ∧
    (ath9k_beacon_tasklet_select 4 100 [some 0, none, some 1, none] 0).2.2 =
      ((ath9k_beacon_tasklet_select 4 100
          [some 0, none, some 1, none] 0).2.1).toList := by
  exact stagger_select_slot 4 100 [some 0, none, some 1, none] 0
    (by decide) (by decide)

theorem slotScanAux_noempty : ∀ (l : List (Option Nat)) (idx acc : Nat),
    firstPairIdx l = none → lastEmptyIdx l = none →
      slotScanAux l idx acc = acc := by
  intro l
  induction l with
  | nil => intro idx acc _ _; rfl
  | cons a rest ih =>
    intro idx acc hf hl
    cases a with
    | none =>
      exfalso
      rw [show lastEmptyIdx (none :: rest) =
          (match lastEmptyIdx rest with
           | some j => some (j + 1)
           | none => some 0) from rfl] at hl
      cases hl0 : lastEmptyIdx rest with
      | none => rw [hl0] at hl; simp at hl
      | some j0 => rw [hl0] at hl; simp at hl
    | some x =>
      rw [show slotScanAux (some x :: rest) idx acc =
          slotScanAux rest (idx + 1) acc from rfl]
      rw [show firstPairIdx (some x :: rest) =
          (match firstPairIdx rest with
           | some i => some (i + 1)
           | none => none) from rfl] at hf
      rw [show lastEmptyIdx (some x :: rest) =
          (match lastEmptyIdx rest with
           | some j => some (j + 1)
           | none => none) from rfl] at hl
      cases hf0 : firstPairIdx rest with
      | some i0 => rw [hf0] at hf; simp at hf
      | none =>
        cases hl0 : lastEmptyIdx rest with
        | some j0 => rw [hl0] at hl; simp at hl
        | none => exact ih (idx + 1) acc hf0 hl0

theorem slotScanAux_pair : ∀ (l : List (Option Nat)) (idx acc i : Nat),
    firstPairIdx l = some i → slotScanAux l idx acc = idx + i + 1 := by
  intro l
  induction l with
  | nil => intro idx acc i h; simp [firstPairIdx] at h
  | cons a rest ih =>
    intro idx acc i h
    cases a with
    | some x =>
      rw [show slotScanAux (some x :: rest) idx acc =
          slotScanAux rest (idx + 1) acc from rfl]
      rw [show firstPairIdx (some x :: rest) =
          (match firstPairIdx rest with
           | some i => some (i + 1)
           | none => none) from rfl] at h
      cases hf : firstPairIdx rest with
      | none => rw [hf] at h; simp at h
      | some i0 =>
        rw [hf] at h
        simp only [Option.some.injEq] at h
        rw [ih (idx + 1) acc i0 hf]
        omega
    | none =>
      cases rest with
      | nil =>
        rw [show firstPairIdx [none] = none from rfl] at h
        simp at h
      | cons b rest2 =>
        cases b with
        | none =>
          rw [show firstPairIdx (none :: none :: rest2) = some 0 from rfl]
            at h
          cases h
          rfl
        | some y =>
          rw [show slotScanAux (none :: some y :: rest2) idx acc =
              slotScanAux (some y :: rest2) (idx + 1) idx from rfl]
          rw [show firstPairIdx (none :: some y :: rest2) =
              (match firstPairIdx (some y :: rest2) with
               | some i => some (i + 1)
               | none => none) from rfl] at h
          cases hf : firstPairIdx (some y :: rest2) with
          | none => rw [hf] at h; simp at h
          | some i0 =>
            rw [hf] at h
            simp only [Option.some.injEq] at h
            rw [ih (idx + 1) idx i0 hf]
            omega

theorem slotScanAux_nopair : ∀ (l : List (Option Nat)) (idx acc j : Nat),
    firstPairIdx l = none → lastEmptyIdx l = some j →
      slotScanAux l idx acc = idx + j := by
  intro l
  induction l with
  | nil => intro idx acc j _ hl; simp [lastEmptyIdx] at hl
  | cons a rest ih =>
    intro idx acc j hf hl
    cases a with
    | some x =>
      rw [show slotScanAux (some x :: rest) idx acc =
          slotScanAux rest (idx + 1) acc from rfl]
      rw [show firstPairIdx (some x :: rest) =
          (match firstPairIdx rest with
           | some i => some (i + 1)
           | none => none) from rfl] at hf
      rw [show lastEmptyIdx (some x :: rest) =
          (match lastEmptyIdx rest with
           | some j => some (j + 1)
           | none => none) from rfl] at hl
      cases hf0 : firstPairIdx rest with
      | some i0 => rw [hf0] at hf; simp at hf
      | none =>
        cases hl0 : lastEmptyIdx rest with
        | none => rw [hl0] at hl; simp at hl
        | some j0 =>
          rw [hl0] at hl
          simp only [Option.some.injEq] at hl
          rw [ih (idx + 1) acc j0 hf0 hl0]
          omega
    | none =>
      cases rest with
      | nil =>
        rw [show slotScanAux [none] idx acc =
            slotScanAux [] (idx + 1) idx from rfl]
        rw [show lastEmptyIdx [none] = some 0 from rfl] at hl
        cases hl
        rfl
      | cons b rest2 =>
        cases b with
        | none =>
          exfalso
          rw [show firstPairIdx (none :: none :: rest2) = some 0 from rfl]
            at hf
          simp at hf
        | some y =>
          rw [show slotScanAux (none :: some y :: rest2) idx acc =
              slotScanAux (some y :: rest2) (idx + 1) idx from rfl]
          rw [show firstPairIdx (none :: some y :: rest2) =
              (match firstPairIdx (some y :: rest2) with
               | some i => some (i + 1)
               | none => none) from rfl] at hf
          rw [show lastEmptyIdx (none :: some y :: rest2) =
              (match lastEmptyIdx (some y :: rest2) with
               | some j => some (j + 1)
               | none => some 0) from rfl] at hl
          cases hf0 : firstPairIdx (some y :: rest2) with
          | some i0 => rw [hf0] at hf; simp at hf
          | none =>
            cases hl0 : lastEmptyIdx (some y :: rest2) with
            | some j0 =>
              rw [hl0] at hl
              simp only [Option.some.injEq] at hl
              rw [ih (idx + 1) idx j0 hf0 hl0]
              omega
            | none =>
              rw [hl0] at hl
              simp only [Option.some.injEq] at hl
              rw [slotScanAux_noempty (some y :: rest2) (idx + 1) idx
                hf0 hl0]
              omega

theorem firstPairIdx_spec : ∀ (l : List (Option Nat)) (i : Nat),
    firstPairIdx l = some i →
      l.get? i = some none ∧ l.get? (i + 1) = some none := by
  intro l
  induction l with
  | nil => intro i h; simp [firstPairIdx] at h
  | cons a rest ih =>
    intro i h
    cases a with
    | some x =>
      rw [show firstPairIdx (some x :: rest) =
          (match firstPairIdx rest with
           | some i => some (i + 1)
           | none => none) from rfl] at h
      cases hf : firstPairIdx rest with
      | none => rw [hf] at h; simp at h
      | some i0 =>
        rw [hf] at h
        simp only [Option.some.injEq] at h
        obtain ⟨h1, h2⟩ := ih i0 hf
        rw [← h]
        exact ⟨by simpa using h1, by simpa using h2⟩
    | none =>
      cases rest with
      | nil =>
        rw [show firstPairIdx [none] = none from rfl] at h
        simp at h
      | cons b rest2 =>
        cases b with
        | none =>
          rw [show firstPairIdx (none :: none :: rest2) = some 0 from rfl]
            at h
          cases h
          exact ⟨rfl, rfl⟩
        | some y =>
          rw [show firstPairIdx (none :: some y :: rest2) =
              (match firstPairIdx (some y :: rest2) with
               | some i => some (i + 1)
               | none => none) from rfl] at h
          cases hf : firstPairIdx (some y :: rest2) with
          | none => rw [hf] at h; simp at h
          | some i0 =>
            rw [hf] at h
            simp only [Option.some.injEq] at h
            obtain ⟨h1, h2⟩ := ih i0 hf
            rw [← h]
            exact ⟨by simpa using h1, by simpa using h2⟩

theorem lastEmptyIdx_spec : ∀ (l : List (Option Nat)) (j : Nat),
    lastEmptyIdx l = some j → l.get? j = some none := by
  intro l
  induction l with
  | nil => intro j h; simp [lastEmptyIdx] at h
  | cons a rest ih =>
    intro j h
    cases a with
    | some x =>
      rw [show lastEmptyIdx (some x :: rest) =
          (match lastEmptyIdx rest with
           | some j => some (j + 1)
           | none => none) from rfl] at h
      cases hf : lastEmptyIdx rest with
      | none => rw [hf] at h; simp at h
      | some j0 =>
        rw [hf] at h
        simp only [Option.some.injEq] at h
        rw [← h]
        simpa using ih j0 hf
    | none =>
      rw [show lastEmptyIdx (none :: rest) =
          (match lastEmptyIdx rest with
           | some j => some (j + 1)
           | none => some 0) from rfl] at h
      cases hf : lastEmptyIdx rest with
      | none => rw [hf] at h; cases h; rfl
      | some j0 =>
        rw [hf] at h
        cases h
        simpa using ih j0 hf

theorem lastEmptyIdx_isSome (l : List (Option Nat))
    (h : none ∈ l) : ∃ j, lastEmptyIdx l = some j := by
  induction l with
  | nil => simp at h
  | cons a rest ih =>
    cases a with
    | none =>
      rw [show lastEmptyIdx (none :: rest) =
          (match lastEmptyIdx rest with
           | some j => some (j + 1)
           | none => some 0) from rfl]
      cases hf : lastEmptyIdx rest with
      | none => exact ⟨0, rfl⟩
      | some j0 => exact ⟨j0 + 1, rfl⟩
    | some x =>
      have hmem : none ∈ rest := by simpa using h
      obtain ⟨j0, hj0⟩ := ih hmem
      refine ⟨j0 + 1, ?_⟩
      rw [show lastEmptyIdx (some x :: rest) =
          (match lastEmptyIdx rest with
           | some j => some (j + 1)
           | none => none) from rfl, hj0]

/-- Whenever an empty slot exists, the scan lands on an empty slot (so the
`KASSERT` in `ath_beacon_alloc` holds). -/
theorem slotScan_empty (l : List (Option Nat)) (h : none ∈ l) :
    l.get? (slotScan l) = some none := by
  rw [slotScan]
  cases hf : firstPairIdx l with
  | some i =>
    rw [slotScanAux_pair l 0 0 i hf]
    have := (firstPairIdx_spec l i hf).2
    simpa using this
  | none =>
    obtain ⟨j, hj⟩ := lastEmptyIdx_isSome l h
    rw [slotScanAux_nopair l 0 0 j hf hj]
    have := lastEmptyIdx_spec l j hj
    simpa using this

/-- C10: releasing beacon state for a vap whose beacon buffer is not
allocated is a complete no-op (slot table, beaconing count and buffer pool
unchanged — indeed the whole state); and for a vap that holds a buffer but
whose slot index is `-1`, the buffer (with its frame freed) is returned to
the tail of the pool while the slot table and the beaconing count stay
untouched. -/
theorem beacon_return_noop_and_slotless (sc : AthSoftc) (v : Nat) :
    ((sc.sc_vaps v).av_bcbuf = none → ath_beacon_return sc v = sc) ∧
    (∀ bf, (sc.sc_vaps v).av_bcbuf = some bf →
      (sc.sc_vaps v).av_bslot = none →
      (ath_beacon_return sc v).sc_bslot = sc.sc_bslot ∧
      (ath_beacon_return sc v).sc_nbcnvaps = sc.sc_nbcnvaps ∧
      (ath_beacon_return sc v).sc_bbuf =
        sc.sc_bbuf ++ [{ bf with bf_mpdu := none }] ∧
      ((ath_beacon_return sc v).sc_vaps v).av_bcbuf = none) := by
  constructor
  · intro h
    simp only [ath_beacon_return, h]
  · intro bf hb hs
    simp only [ath_beacon_return, hb, hs]
    simp

/-- Closed witness for `beacon_return_noop_and_slotless`. -/
theorem beacon_return_noop_and_slotless_witness :
    ath_beacon_return (initSoftc 4 [⟨9, none⟩]) 0 =
      initSoftc 4 [⟨9, none⟩] := by
  exact (beacon_return_noop_and_slotless (initSoftc 4 [⟨9, none⟩]) 0).1 rfl

/-- C1 counterexample: on the slot table [empty, occupied, empty, empty]
the claimed rule — take the first empty slot, preferring the second of the
pair only when the first empty slot and its successor are both empty —
chooses slot 0, but `ath_beacon_alloc` assigns slot 3: the source's loop
keeps scanning after the first empty slot, and when no adjacent empty pair
exists it ends on the *last* empty slot, not the first. -/
theorem slot_choice_counterexample :
    (match ath_beacon_alloc true false 4 100 24
        (some (List.replicate 40 0)) c1State 0 with
     | some (sc', _) => (sc'.sc_vaps 0).av_bslot
     | none => none) = some 3 ∧
    claimedSlotChoice [none, some 5, none, none] = some 0 ∧
    (3 : Nat) ≠ 0 := by
  exact ⟨by decide, by decide, by decide⟩

/-- C1 (amended): for every invocation of the slot allocator for an
interface requiring slot management, on a state with a free buffer and at
least one empty slot, the allocation succeeds and assigns
`slotScan sc_bslot`; that slot is the *second slot of the first adjacent
pair of empty slots* when such a pair exists, and otherwise the *last
(highest-indexed) empty slot*; the assigned slot was empty beforehand. -/
theorem slot_choice_amended (stagbeacons : Bool)
    (ATH_BCBUF intval hdrlen : Nat) (newFrame : Option (List Nat))
    (sc : AthSoftc) (if_id : Nat)
    (hb : (sc.sc_vaps if_id).av_bcbuf = none)
    (hpool : sc.sc_bbuf ≠ [])
    (hempty : none ∈ sc.sc_bslot) :
    (ath_beacon_alloc true stagbeacons ATH_BCBUF intval hdrlen
        newFrame sc if_id).isSome = true ∧
    (∀ sc' r, ath_beacon_alloc true stagbeacons ATH_BCBUF intval hdrlen
        newFrame sc if_id = some (sc', r) →
      (sc'.sc_vaps if_id).av_bslot = some (slotScan sc.sc_bslot)) ∧
    sc.sc_bslot.get? (slotScan sc.sc_bslot) = some none ∧
    (∀ i, firstPairIdx sc.sc_bslot = some i →
      slotScan sc.sc_bslot = i + 1) ∧
    (∀ j, firstPairIdx sc.sc_bslot = none →
      lastEmptyIdx sc.sc_bslot = some j → slotScan sc.sc_bslot = j) := by
  have hscan := slotScan_empty sc.sc_bslot hempty
  obtain ⟨bf, rest, hpq⟩ : ∃ bf rest, sc.sc_bbuf = bf :: rest := by
    cases h : sc.sc_bbuf with
    | nil => exact absurd h hpool
    | cons a l => exact ⟨a, l, rfl⟩
  refine ⟨?_, ?_, hscan, ?_, ?_⟩
  · simp only [ath_beacon_alloc, hb, hpq, hscan, eq_self_iff_true,
      if_true]
    cases newFrame <;> simp
  · intro sc' r h
    simp only [ath_beacon_alloc, hb, hpq, hscan, eq_self_iff_true,
      if_true] at h
    cases newFrame with
    | none =>
      simp only [Option.some.injEq, Prod.mk.injEq] at h
      rw [← h.1]
      simp
    | some skb =>
      simp only [Option.some.injEq, Prod.mk.injEq] at h
      rw [← h.1]
      simp
  · intro i hi
    rw [slotScan, slotScanAux_pair sc.sc_bslot 0 0 i hi]
    omega
  · intro j hf hj
    rw [slotScan, slotScanAux_nopair sc.sc_bslot 0 0 j hf hj]
    omega

/-- Closed witness for `slot_choice_amended`: applying the amended rule on
`c1State` (no adjacent empty pair: the last empty slot, 3, is taken). -/
theorem slot_choice_amended_witness :
    (ath_beacon_alloc true false 4 100 24 (some (List.replicate 40 0))
        c1State 0).isSome = true ∧
    (∀ sc' r, ath_beacon_alloc true false 4 100 24
        (some (List.replicate 40 0)) c1State 0 = some (sc', r) →
      (sc'.sc_vaps 0).av_bslot = some (slotScan c1State.sc_bslot)) ∧
    c1State.sc_bslot.get? (slotScan c1State.sc_bslot) = some none ∧
    (∀ i, firstPairIdx c1State.sc_bslot = some i →
      slotScan c1State.sc_bslot = i + 1) ∧
    (∀ j, firstPairIdx c1State.sc_bslot = none →
      lastEmptyIdx c1State.sc_bslot = some j →
      slotScan c1State.sc_bslot = j) := by
  exact slot_choice_amended false 4 100 24 (some (List.replicate 40 0))
    c1State 0 rfl (by decide) (by decide)

theorem ath_beacon_alloc_success_shape (needsSlot stagbeacons : Bool)
    (ATH_BCBUF intval hdrlen : Nat) (skb : List Nat) (sc : AthSoftc)
    (if_id : Nat) (sc' : AthSoftc) (r : Int)
    (h : ath_beacon_alloc needsSlot stagbeacons ATH_BCBUF intval hdrlen
        (some skb) sc if_id = some (sc', r)) :
    ∃ d sl, sc'.sc_vaps if_id =
      { av_bcbuf := some ⟨d, some (stagFrameAdjust stagbeacons sl
          ATH_BCBUF intval hdrlen skb)⟩, av_bslot := sl } := by
  cases hb : (sc.sc_vaps if_id).av_bcbuf with
  | some bfold =>
    simp only [ath_beacon_alloc, hb, Option.some.injEq,
      Prod.mk.injEq] at h
    obtain ⟨hS, -⟩ := h
    rw [← hS]
    exact ⟨bfold.bf_daddr, (sc.sc_vaps if_id).av_bslot, by simp⟩
  | none =>
    rcases Bool.eq_false_or_eq_true needsSlot with hns | hns
    · cases hp : sc.sc_bbuf with
      | nil => simp [ath_beacon_alloc, hb, hp] at h
      | cons bf rest =>
        by_cases hk : sc.sc_bslot.get? (slotScan sc.sc_bslot) = some none
        · simp only [ath_beacon_alloc, hb, hp, hns, hk, eq_self_iff_true,
            if_true, Option.some.injEq, Prod.mk.injEq] at h
          obtain ⟨hS, -⟩ := h
          rw [← hS]
          exact ⟨bf.bf_daddr, some (slotScan sc.sc_bslot), by simp⟩
        · simp only [ath_beacon_alloc, hb, hp, hns, eq_self_iff_true,
            if_true, if_neg hk] at h
          simp at h
    · cases hp : sc.sc_bbuf with
      | nil => simp [ath_beacon_alloc, hb, hp] at h
      | cons bf rest =>
        simp only [ath_beacon_alloc, hb, hp, hns, Bool.false_eq_true,
          if_false, Option.some.injEq, Prod.mk.injEq] at h
        obtain ⟨hS, -⟩ := h
        rw [← hS]
        exact ⟨bf.bf_daddr, (sc.sc_vaps if_id).av_bslot, by simp⟩

/-- C9: with staggered beaconing enabled, a successful `ath_beacon_alloc`
for a vap that ends up with assigned slot `s > 0` attaches to the vap's
beacon buffer the fresh frame with the 8 little-endian bytes of the TSF
adjustment `((intval * (ATH_BCBUF - s)) / ATH_BCBUF) << 10` (TU shifted
into clock units) written immediately after the 802.11 header (`hdrlen`
bytes into the frame); a vap ending in slot 0 — or with no slot — receives
the frame unmodified. -/
theorem tsfadjust_write (needsSlot : Bool) (ATH_BCBUF intval hdrlen : Nat)
    (skb : List Nat) (sc : AthSoftc) (if_id : Nat) (sc' : AthSoftc)
    (r : Int)
    (h : ath_beacon_alloc needsSlot true ATH_BCBUF intval hdrlen
        (some skb) sc if_id = some (sc', r)) :
    (∀ s, (sc'.sc_vaps if_id).av_bslot = some s → 0 < s →
      ∃ bf, (sc'.sc_vaps if_id).av_bcbuf = some bf ∧
        bf.bf_mpdu = some (skb.take hdrlen ++
          le64Bytes (tsfadjustVal ATH_BCBUF intval s) ++
          skb.drop (hdrlen + 8))) ∧
    ((sc'.sc_vaps if_id).av_bslot = some 0 ∨
        (sc'.sc_vaps if_id).av_bslot = none →
      ∃ bf, (sc'.sc_vaps if_id).av_bcbuf = some bf ∧
        bf.bf_mpdu = some skb) := by
  obtain ⟨d, sl, hv⟩ := ath_beacon_alloc_success_shape needsSlot true
    ATH_BCBUF intval hdrlen skb sc if_id sc' r h
  constructor
  · intro s hs hpos
    rw [hv] at hs ⊢
    simp only at hs
    subst hs
    refine ⟨_, rfl, ?_⟩
    simp only [stagFrameAdjust, if_pos hpos, writeTsfAdjust]
  · intro hcase
    rw [hv] at hcase ⊢
    simp only at hcase
    cases hcase with
    | inl h0 =>
      subst h0
      refine ⟨_, rfl, ?_⟩
      simp [stagFrameAdjust]
    | inr hn =>
      subst hn
      refine ⟨_, rfl, ?_⟩
      simp [stagFrameAdjust]

/-- Closed witness for `tsfadjust_write`. -/
theorem tsfadjust_write_witness :
    ath_beacon_alloc true true 4 100 24 (some (List.replicate 40 5))
      c1State 0 = some (c9AllocResult, 0) ∧
    (∃ bf, (c9AllocResult.sc_vaps 0).av_bcbuf = some bf ∧
      bf.bf_mpdu = some ((List.replicate 40 5).take 24 ++
        le64Bytes (tsfadjustVal 4 100 3) ++
        (List.replicate 40 5).drop (24 + 8))) := by
  refine ⟨rfl, ?_⟩
  have h := tsfadjust_write true 4 100 24 (List.replicate 40 5) c1State 0
    c9AllocResult 0 rfl
  exact h.1 3 rfl (by decide)

theorem countP_set_some : ∀ (l : List (Option Nat)) (n x : Nat),
    l.get? n = some none →
      (l.set n (some x)).countP Option.isSome =
        l.countP Option.isSome + 1 := by
  intro l
  induction l with
  | nil => intro n x h; simp at h
  | cons a t ih =>
    intro n x h
    cases n with
    | zero =>
      simp only [List.get?] at h
      cases h
      simp [List.countP_cons]
    | succ m =>
      simp only [List.get?] at h
      simp only [List.set, List.countP_cons]
      rw [ih m x h]
      omega

theorem countP_set_none : ∀ (l : List (Option Nat)) (n v : Nat),
    l.get? n = some (some v) →
      l.countP Option.isSome =
        (l.set n none).countP Option.isSome + 1 := by
  intro l
  induction l with
  | nil => intro n v h; simp at h
  | cons a t ih =>
    intro n v h
    cases n with
    | zero =>
      simp only [List.get?] at h
      cases h
      simp [List.countP_cons]
    | succ m =>
      simp only [List.get?] at h
      simp only [List.set, List.countP_cons]
      rw [ih m v h]
      omega

theorem countP_replicate_none : ∀ N : Nat,
    (List.replicate N (none : Option Nat)).countP Option.isSome = 0 := by
  intro N
  induction N with
  | zero => rfl
  | succ M ih => simp [List.replicate_succ, List.countP_cons, ih]

theorem replicate_none_get? : ∀ (N i : Nat) (a : Option Nat),
    (List.replicate N (none : Option Nat)).get? i = some a → a = none := by
  intro N
  induction N with
  | zero => intro i a h; simp at h
  | succ M ih =>
    intro i a h
    cases i with
    | zero =>
      rw [List.replicate_succ] at h
      simp only [List.get?] at h
      cases h
      rfl
    | succ m =>
      rw [List.replicate_succ] at h
      simp only [List.get?] at h
      exact ih m a h

/-- Every successful `ath_beacon_alloc` (slot-management mode) either
refreshes a vap that already owned its buffer — only that vap's record
changes, keeping its slot — or takes the pool head and assigns the scanned
(previously empty) slot. -/
theorem ath_beacon_alloc_state_shape (stagbeacons : Bool)
    (ATH_BCBUF intval hdrlen : Nat) (f : Option (List Nat))
    (sc : AthSoftc) (if_id : Nat) (sc' : AthSoftc) (r : Int)
    (h : ath_beacon_alloc true stagbeacons ATH_BCBUF intval hdrlen
        f sc if_id = some (sc', r)) :
    (∃ newVap : AthVap, newVap.av_bcbuf ≠ none ∧
      newVap.av_bslot = (sc.sc_vaps if_id).av_bslot ∧
      (sc.sc_vaps if_id).av_bcbuf ≠ none ∧
      sc' = { sc_bslot := sc.sc_bslot, sc_nbcnvaps := sc.sc_nbcnvaps,
              sc_bbuf := sc.sc_bbuf,
              sc_vaps := fun i =>
                if i = if_id then newVap else sc.sc_vaps i }) ∨
    (∃ (newVap : AthVap) (bf : AthBuf) (rest : List AthBuf),
      newVap.av_bcbuf ≠ none ∧
      newVap.av_bslot = some (slotScan sc.sc_bslot) ∧
      (sc.sc_vaps if_id).av_bcbuf = none ∧
      sc.sc_bbuf = bf :: rest ∧
      sc.sc_bslot.get? (slotScan sc.sc_bslot) = some none ∧
      sc' = { sc_bslot :=
                sc.sc_bslot.set (slotScan sc.sc_bslot) (some if_id),
              sc_nbcnvaps := sc.sc_nbcnvaps + 1, sc_bbuf := rest,
              sc_vaps := fun i =>
                if i = if_id then newVap else sc.sc_vaps i }) := by
  cases hb : (sc.sc_vaps if_id).av_bcbuf with
  | some bfold =>
    left
    cases hf : f with
    | none =>
      simp only [ath_beacon_alloc, hb, hf, Option.some.injEq,
        Prod.mk.injEq] at h
      obtain ⟨hS, -⟩ := h
      exact ⟨{ av_bcbuf := some ⟨bfold.bf_daddr, none⟩,
               av_bslot := (sc.sc_vaps if_id).av_bslot },
        by simp, rfl, by simp [hb], hS.symm⟩
    | some skb =>
      simp only [ath_beacon_alloc, hb, hf, Option.some.injEq,
        Prod.mk.injEq] at h
      obtain ⟨hS, -⟩ := h
      exact ⟨{ av_bcbuf := some ⟨bfold.bf_daddr,
                 some (stagFrameAdjust stagbeacons
                   ((sc.sc_vaps if_id).av_bslot) ATH_BCBUF intval hdrlen
                   skb)⟩,
               av_bslot := (sc.sc_vaps if_id).av_bslot },
        by simp, rfl, by simp [hb], hS.symm⟩
  | none =>
    cases hp : sc.sc_bbuf with
    | nil => simp [ath_beacon_alloc, hb, hp] at h
    | cons bf rest =>
      by_cases hk : sc.sc_bslot.get? (slotScan sc.sc_bslot) = some none
      · right
        cases hf : f with
        | none =>
          simp only [ath_beacon_alloc, hb, hp, hf, hk, eq_self_iff_true,
            if_true, Option.some.injEq, Prod.mk.injEq] at h
          obtain ⟨hS, -⟩ := h
          exact ⟨{ av_bcbuf := some ⟨bf.bf_daddr, none⟩,
                   av_bslot := some (slotScan sc.sc_bslot) },
            bf, rest, by simp, rfl, rfl, rfl, hk, hS.symm⟩
        | some skb =>
          simp only [ath_beacon_alloc, hb, hp, hf, hk, eq_self_iff_true,
            if_true, Option.some.injEq, Prod.mk.injEq] at h
          obtain ⟨hS, -⟩ := h
          exact ⟨{ av_bcbuf := some ⟨bf.bf_daddr,
                     some (stagFrameAdjust stagbeacons
                       (some (slotScan sc.sc_bslot)) ATH_BCBUF intval
                       hdrlen skb)⟩,
                   av_bslot := some (slotScan sc.sc_bslot) },
            bf, rest, by simp, rfl, rfl, rfl, hk, hS.symm⟩
      · simp only [ath_beacon_alloc, hb, hp, eq_self_iff_true, if_true,
          if_neg hk] at h
        simp at h

theorem slotInv_refresh (N : Nat) (sc : AthSoftc) (if_id : Nat)
    (newVap : AthVap) (hInv : SlotInv N sc)
    (hold : (sc.sc_vaps if_id).av_bcbuf ≠ none)
    (hnb : newVap.av_bcbuf ≠ none)
    (hsl : newVap.av_bslot = (sc.sc_vaps if_id).av_bslot) :
    SlotInv N { sc_bslot := sc.sc_bslot, sc_nbcnvaps := sc.sc_nbcnvaps,
                sc_bbuf := sc.sc_bbuf,
                sc_vaps := fun i =>
                  if i = if_id then newVap else sc.sc_vaps i } := by
  obtain ⟨h1, h2, h3, h4, h5, h6⟩ := hInv
  refine ⟨h1, ?_, ?_, h4, h5, ?_⟩
  · intro i v hget
    obtain ⟨ha, hbne⟩ := h2 i v hget
    by_cases hv : v = if_id
    · subst hv
      simp only [if_pos rfl]
      exact ⟨hsl.trans ha, hnb⟩
    · simp only [if_neg hv]
      exact ⟨ha, hbne⟩
  · intro v i hbv hsv
    by_cases hv : v = if_id
    · subst hv
      simp only [if_pos rfl] at hsv
      exact h3 v i hold (hsl.symm.trans hsv)
    · simp only [if_neg hv] at hbv hsv
      exact h3 v i hbv hsv
  · intro v hbv
    by_cases hv : v = if_id
    · subst hv
      simp only [if_pos rfl] at hbv ⊢
      obtain ⟨i, hi⟩ := h6 v hold
      exact ⟨i, hsl.trans hi⟩
    · simp only [if_neg hv] at hbv ⊢
      exact h6 v hbv

theorem slotInv_assign (N : Nat) (sc : AthSoftc) (if_id : Nat)
    (newVap : AthVap) (bf : AthBuf) (rest : List AthBuf)
    (hInv : SlotInv N sc)
    (hold : (sc.sc_vaps if_id).av_bcbuf = none)
    (hp : sc.sc_bbuf = bf :: rest)
    (hk : sc.sc_bslot.get? (slotScan sc.sc_bslot) = some none)
    (hnb : newVap.av_bcbuf ≠ none)
    (hsl : newVap.av_bslot = some (slotScan sc.sc_bslot)) :
    SlotInv N { sc_bslot := sc.sc_bslot.set (slotScan sc.sc_bslot)
                  (some if_id),
                sc_nbcnvaps := sc.sc_nbcnvaps + 1, sc_bbuf := rest,
                sc_vaps := fun i =>
                  if i = if_id then newVap else sc.sc_vaps i } := by
  obtain ⟨h1, h2, h3, h4, h5, h6⟩ := hInv
  refine ⟨?_, ?_, ?_, ?_, ?_, ?_⟩
  · simp [h1]
  · intro i v hget
    by_cases hi : i = slotScan sc.sc_bslot
    · subst hi
      rw [List.get?_set_eq, hk] at hget
      simp at hget
      subst hget
      exact ⟨by simpa using hsl, by simpa using hnb⟩
    · rw [List.get?_set_ne _ _ (fun hh => hi hh.symm)] at hget
      obtain ⟨ha, hbne⟩ := h2 i v hget
      by_cases hv : v = if_id
      · subst hv
        exact absurd hold hbne
      · simp only [if_neg hv]
        exact ⟨ha, hbne⟩
  · intro v i hbv hsv
    by_cases hv : v = if_id
    · subst hv
      have hsv' : newVap.av_bslot = some i := by simpa using hsv
      have hi : i = slotScan sc.sc_bslot := by
        rw [hsl] at hsv'
        cases hsv'
        rfl
      subst hi
      rw [List.get?_set_eq, hk]
      rfl
    · simp only [if_neg hv] at hbv hsv
      have hget := h3 v i hbv hsv
      have hi : i ≠ slotScan sc.sc_bslot := by
        intro hh
        rw [hh, hk] at hget
        cases hget
      rw [List.get?_set_ne _ _ (fun hh => hi hh.symm)]
      exact hget
  · show sc.sc_nbcnvaps + 1 = List.countP Option.isSome
      (sc.sc_bslot.set (slotScan sc.sc_bslot) (some if_id))
    rw [countP_set_some sc.sc_bslot (slotScan sc.sc_bslot) if_id hk]
    omega
  · show sc.sc_nbcnvaps + 1 + rest.length ≤ N
    have h5' := h5
    rw [hp] at h5'
    simp only [List.length_cons] at h5'
    omega
  · intro v hbv
    by_cases hv : v = if_id
    · subst hv
      exact ⟨slotScan sc.sc_bslot, by simpa using hsl⟩
    · simp only [if_neg hv] at hbv
      obtain ⟨i, hi⟩ := h6 v hbv
      exact ⟨i, by simpa [if_neg hv] using hi⟩

theorem slotInv_return (N : Nat) (sc : AthSoftc) (v : Nat)
    (hInv : SlotInv N sc) : SlotInv N (ath_beacon_return sc v) := by
  obtain ⟨h1, h2, h3, h4, h5, h6⟩ := hInv
  cases hb : (sc.sc_vaps v).av_bcbuf with
  | none =>
    simp only [ath_beacon_return, hb]
    exact ⟨h1, h2, h3, h4, h5, h6⟩
  | some bf =>
    obtain ⟨i, hi⟩ := h6 v (by simp [hb])
    have hgv : sc.sc_bslot.get? i = some (some v) :=
      h3 v i (by simp [hb]) hi
    have hcount := countP_set_none sc.sc_bslot i v hgv
    simp only [ath_beacon_return, hb, hi]
    refine ⟨?_, ?_, ?_, ?_, ?_, ?_⟩
    · simp [h1]
    · intro j w hget
      by_cases hj : j = i
      · subst hj
        rw [List.get?_set_eq, hgv] at hget
        simp at hget
      · rw [List.get?_set_ne _ _ (fun hh => hj hh.symm)] at hget
        obtain ⟨ha, hbne⟩ := h2 j w hget
        have hw : w ≠ v := by
          intro hh
          subst hh
          rw [hi] at ha
          cases ha
          exact hj rfl
        simp only [if_neg hw]
        exact ⟨ha, hbne⟩
    · intro w j hbw hsw
      by_cases hw : w = v
      · subst hw
        simp only [if_pos rfl] at hbw
        exact absurd rfl hbw
      · simp only [if_neg hw] at hbw hsw
        have hget := h3 w j hbw hsw
        have hj : j ≠ i := by
          intro hh
          rw [hh, hgv] at hget
          cases hget
          exact hw rfl
        rw [List.get?_set_ne _ _ (fun hh => hj hh.symm)]
        exact hget
    · show sc.sc_nbcnvaps - 1 =
        List.countP Option.isSome (sc.sc_bslot.set i none)
      omega
    · show sc.sc_nbcnvaps - 1 +
          (sc.sc_bbuf ++ [{ bf with bf_mpdu := none }]).length ≤ N
      rw [List.length_append]
      simp only [List.length_cons, List.length_nil]
      omega
    · intro w hbw
      by_cases hw : w = v
      · subst hw
        simp only [if_pos rfl] at hbw
        exact absurd rfl hbw
      · simp only [if_neg hw] at hbw ⊢
        exact h6 w hbw

theorem slotInv_step (N P intval hdrlen : Nat) (stagbeacons : Bool)
    (sc : AthSoftc) (op : BeaconOp) (hInv : SlotInv N sc) :
    SlotInv N (beaconStep true stagbeacons P intval hdrlen sc op) := by
  cases op with
  | release if_id => exact slotInv_return N sc if_id hInv
  | alloc if_id f =>
    simp only [beaconStep]
    cases han : ath_beacon_alloc true stagbeacons P intval hdrlen
        f sc if_id with
    | none => exact hInv
    | some pr =>
      obtain ⟨sc', r⟩ := pr
      show SlotInv N sc'
      rcases ath_beacon_alloc_state_shape stagbeacons P intval hdrlen
          f sc if_id sc' r han with
        ⟨nv, hnb, hsl, hold, hS⟩ | ⟨nv, bf, rest, hnb, hsl, hold, hp, hk, hS⟩
      · rw [hS]
        exact slotInv_refresh N sc if_id nv hInv hold hnb hsl
      · rw [hS]
        exact slotInv_assign N sc if_id nv bf rest
          hInv hold hp hk hnb hsl

theorem slotInv_init (N : Nat) (bufs : List AthBuf)
    (h : bufs.length ≤ N) : SlotInv N (initSoftc N bufs) := by
  refine ⟨by simp [initSoftc], ?_, ?_, ?_, ?_, ?_⟩
  · intro i v hget
    have := replicate_none_get? N i (some v) hget
    cases this
  · intro v i hbv hsv
    exact absurd rfl hbv
  · simp [initSoftc, countP_replicate_none]
  · simpa [initSoftc] using h
  · intro v hbv
    exact absurd rfl hbv

theorem slotInv_run (N P intval hdrlen : Nat) (stagbeacons : Bool) :
    ∀ (ops : List BeaconOp) (sc : AthSoftc), SlotInv N sc →
      SlotInv N (beaconRun true stagbeacons P intval hdrlen ops sc) := by
  intro ops
  induction ops with
  | nil => intro sc h; exact h
  | cons op rest ih =>
    intro sc h
    simp only [beaconRun, List.foldl_cons]
    exact ih _ (slotInv_step N P intval hdrlen stagbeacons sc op h)

/-- A fresh allocation (no buffer yet, non-empty pool, an empty slot
available) succeeds and assigns exactly the scanned slot. -/
theorem alloc_fresh_success (stagbeacons : Bool)
    (ATH_BCBUF intval hdrlen : Nat) (f : Option (List Nat))
    (sc : AthSoftc) (if_id : Nat)
    (hb : (sc.sc_vaps if_id).av_bcbuf = none)
    (hpool : sc.sc_bbuf ≠ [])
    (hempty : none ∈ sc.sc_bslot) :
    (ath_beacon_alloc true stagbeacons ATH_BCBUF intval hdrlen
        f sc if_id).isSome = true ∧
    ∀ sc' r, ath_beacon_alloc true stagbeacons ATH_BCBUF intval hdrlen
        f sc if_id = some (sc', r) →
      (sc'.sc_vaps if_id).av_bslot = some (slotScan sc.sc_bslot) := by
  have hscan := slotScan_empty sc.sc_bslot hempty
  obtain ⟨bf, rest, hpq⟩ : ∃ bf rest, sc.sc_bbuf = bf :: rest := by
    cases h : sc.sc_bbuf with
    | nil => exact absurd h hpool
    | cons a l => exact ⟨a, l, rfl⟩
  constructor
  · simp only [ath_beacon_alloc, hb, hpq, hscan, eq_self_iff_true,
      if_true]
    cases f <;> simp
  · intro sc' r h
    rcases ath_beacon_alloc_state_shape stagbeacons ATH_BCBUF intval
        hdrlen f sc if_id sc' r h with
      ⟨nv, -, -, hold, -⟩ | ⟨nv, bf2, rest2, -, hsl, -, -, -, hS⟩
    · exact absurd hb hold
    · rw [hS]
      simpa using hsl

/-- C8: every sequence of beacon-state allocations and releases, from the
initial state (empty slot table of size `N`, pool of at most `N` buffers),
preserves the slot-table invariant `SlotInv`; no interface ever occupies
two slots; releasing an interface that holds a buffer and slot `i` leaves
slot `i` empty and decrements `sc_nbcnvaps` by one, preserving the
invariant; and a subsequent allocation for any interface without beacon
state succeeds and assigns a slot that is empty in the post-release state
— no collision. -/
theorem slot_table_invariant (N P intval hdrlen : Nat)
    (stagbeacons : Bool) (bufs : List AthBuf) (hbufs : bufs.length ≤ N)
    (ops : List BeaconOp) (sc : AthSoftc)
    (hreach : sc = beaconRun true stagbeacons P intval hdrlen ops
      (initSoftc N bufs)) (v i : Nat) :
    SlotInv N sc ∧
    (∀ i' j' w, sc.sc_bslot.get? i' = some (some w) →
      sc.sc_bslot.get? j' = some (some w) → i' = j') ∧
    ((sc.sc_vaps v).av_bcbuf ≠ none → (sc.sc_vaps v).av_bslot = some i →
      (ath_beacon_return sc v).sc_bslot.get? i = some none ∧
      (ath_beacon_return sc v).sc_nbcnvaps + 1 = sc.sc_nbcnvaps ∧
      SlotInv N (ath_beacon_return sc v) ∧
      (∀ w f, ((ath_beacon_return sc v).sc_vaps w).av_bcbuf = none →
        (ath_beacon_alloc true stagbeacons P intval hdrlen f
          (ath_beacon_return sc v) w).isSome = true ∧
        ∀ sc'' r, ath_beacon_alloc true stagbeacons P intval hdrlen f
            (ath_beacon_return sc v) w = some (sc'', r) →
          ∃ t, (sc''.sc_vaps w).av_bslot = some t ∧
            (ath_beacon_return sc v).sc_bslot.get? t = some none)) := by
  have hInv : SlotInv N sc := by
    rw [hreach]
    exact slotInv_run N P intval hdrlen stagbeacons ops (initSoftc N bufs)
      (slotInv_init N bufs hbufs)
  obtain ⟨h1, h2, h3, h4, h5, h6⟩ := hInv
  refine ⟨⟨h1, h2, h3, h4, h5, h6⟩, ?_, ?_⟩
  · intro i' j' w hgi hgj
    have ha := (h2 i' w hgi).1
    have hb := (h2 j' w hgj).1
    rw [ha] at hb
    cases hb
    rfl
  · intro hbv hsv
    obtain ⟨bf, hb2⟩ : ∃ bf, (sc.sc_vaps v).av_bcbuf = some bf := by
      cases hh : (sc.sc_vaps v).av_bcbuf with
      | none => exact absurd hh hbv
      | some b => exact ⟨b, rfl⟩
    have hgv : sc.sc_bslot.get? i = some (some v) := h3 v i hbv hsv
    have hcount := countP_set_none sc.sc_bslot i v hgv
    have hret : ath_beacon_return sc v =
        { sc_bslot := sc.sc_bslot.set i none,
          sc_nbcnvaps := sc.sc_nbcnvaps - 1,
          sc_bbuf := sc.sc_bbuf ++ [{ bf with bf_mpdu := none }],
          sc_vaps := fun w =>
            if w = v then { av_bcbuf := none, av_bslot := some i }
            else sc.sc_vaps w } := by
      simp only [ath_beacon_return, hb2, hsv]
    have hslotfree : (ath_beacon_return sc v).sc_bslot.get? i =
        some none := by
      rw [hret]
      show (sc.sc_bslot.set i none).get? i = some none
      rw [List.get?_set_eq, hgv]
      rfl
    refine ⟨hslotfree, ?_, slotInv_return N sc v
      ⟨h1, h2, h3, h4, h5, h6⟩, ?_⟩
    · rw [hret]
      show sc.sc_nbcnvaps - 1 + 1 = sc.sc_nbcnvaps
      omega
    · intro w f hw
      have hpool' : (ath_beacon_return sc v).sc_bbuf ≠ [] := by
        rw [hret]
        simp
      have hempty' : none ∈ (ath_beacon_return sc v).sc_bslot :=
        List.get?_mem hslotfree
      have hall := alloc_fresh_success stagbeacons P intval hdrlen f
        (ath_beacon_return sc v) w hw hpool' hempty'
      refine ⟨hall.1, ?_⟩
      intro sc'' r hrun
      exact ⟨slotScan (ath_beacon_return sc v).sc_bslot,
        hall.2 sc'' r hrun,
        slotScan_empty _ hempty'⟩

/-- Closed witness for `slot_table_invariant`: one allocation for
interface 0 from the initial 4-slot state. -/
theorem slot_table_invariant_witness :
    SlotInv 4 (beaconRun true false 4 100 24
      [BeaconOp.alloc 0 (some (List.replicate 40 0))]
      (initSoftc 4 (List.replicate 4 ⟨9, none⟩))) := by
  exact (slot_table_invariant 4 4 100 24 false
    (List.replicate 4 ⟨9, none⟩) (by decide)
    [BeaconOp.alloc 0 (some (List.replicate 40 0))] _ rfl 0 1).1
